import Mathlib

/-!
Verification development for the `rest` repository (Go): the collection
pagination link builder (collection.go) and the generic database DAO
(persistence.go).

Embedding conventions:
- Go `int64` values are modelled as `Int` together with explicit two's
  complement wrapping (`i64wrap`) at every arithmetic operation that can
  overflow in Go; `Int.tdiv` / `Int.tmod` model Go `/` and `%` (truncated
  division, as in Go).
- `url.Values` is modelled as an association list from keys to value lists
  (`Values`); Go maps have unique keys, and the operations used by the code
  (`Get`, `Del`, `Encode`) are modelled directly.  `Encode` sorts by key as
  Go does; percent escaping is not modelled (keys and values are assumed
  URL-safe; no claim depends on escaping).
- URLs are modelled as the strings the Go code assembles; `url.Parse` at the
  end of `collectionURL` is modelled as the identity (for a well-formed base
  URL the parse of base-plus-query succeeds and round-trips), and the empty
  `url.URL{}` value is modelled as the empty string.
- The mutation of the shared `url.Values` map (`Del` inside `collectionURL`)
  is modelled by state passing: every function that receives the map also
  returns the map as it stands after the call.
- The SQL backing store behind the DAO is external to the repository (the
  Query Catalog supplies opaque query strings); it is modelled from the spec
  as a list of identifier-keyed rows, see `getQueryRows`, `insertExec`,
  `updateExec`, `deleteExec`.
-/

/-- Largest signed 64-bit integer, Go `math.MaxInt64`. -/
def maxInt64 : Int := 2 ^ 63 - 1

/-- Smallest signed 64-bit integer. -/
def minInt64 : Int := -(2 ^ 63)

/-- Two's complement wrapping of an integer into the signed 64-bit range,
modelling Go `int64` overflow semantics. -/
def i64wrap (x : Int) : Int := (x + 2 ^ 63) % 2 ^ 64 - 2 ^ 63

/-- Go `int64` addition (wraps on overflow). -/
def i64add (a b : Int) : Int := i64wrap (a + b)

/-- Go `int64` subtraction (wraps on overflow). -/
def i64sub (a b : Int) : Int := i64wrap (a - b)

/-- Go `int64` multiplication (wraps on overflow). -/
def i64mul (a b : Int) : Int := i64wrap (a * b)

/-- Go `int64` division: truncated toward zero, wrapping on the single
overflowing case `MinInt64 / -1`. -/
def i64div (a b : Int) : Int := i64wrap (Int.tdiv a b)

/-- Model of Go `url.Values`: an association list from query-parameter keys to
their value lists.  Keys are unique in a Go map; the model keeps whatever list
it is given and the operations below read the first matching entry. -/
abbrev Values := List (String × List String)

/-- Go `url.Values.Get`: first value associated with the key, `""` if the key
is absent or has no values. -/
def Values.get (vs : Values) (k : String) : String :=
  match List.find? (fun p => p.1 == k) vs with
  | none => ""
  | some p =>
    match p.2 with
    | [] => ""
    | v :: _ => v

/-- Go `url.Values.Del`: removes every entry for the key. -/
def Values.del (vs : Values) (k : String) : Values :=
  List.filter (fun p => p.1 != k) vs

/-- Insertion into a key-sorted association list (helper for `Values.encode`,
mirroring Go `Encode` iterating keys in sorted order). -/
def Values.insertSorted (p : String × List String) : Values → Values
  | [] => [p]
  | q :: rest => if p.1 ≤ q.1 then p :: q :: rest else q :: Values.insertSorted p rest

/-- Sort an association list by key (helper for `Values.encode`). -/
def Values.sortByKey (vs : Values) : Values :=
  List.foldr Values.insertSorted [] vs

/-- Go `url.Values.Encode`: keys in sorted order, each value emitted as
`key=value`, joined by `&`.  Percent escaping is not modelled. -/
def Values.encode (vs : Values) : String :=
  String.intercalate "&"
    (List.flatMap (Values.sortByKey vs) (fun kv => List.map (fun v => kv.1 ++ "=" ++ v) kv.2))

/-- Numeric value of a list of decimal digit characters (helper for
`parseInt64`). -/
def digitsVal (ds : List Char) : Nat :=
  List.foldl (fun acc c => 10 * acc + (c.toNat - 48)) 0 ds

/-- Go `strconv.ParseInt(s, 10, 64)`: an optional leading sign followed by at
least one decimal digit, rejected (`none`) when empty, malformed or out of the
signed 64-bit range. -/
def parseInt64 (s : String) : Option Int :=
  let signDigits : Int × List Char :=
    match s.data with
    | '-' :: rest => (-1, rest)
    | '+' :: rest => (1, rest)
    | l => (1, l)
  let sign := signDigits.1
  let ds := signDigits.2
  if ds.isEmpty then none
  else if List.all ds Char.isDigit then
    let v : Int := sign * (digitsVal ds : Int)
    if v < minInt64 ∨ maxInt64 < v then none else some v
  else none

/-- collection.go `Pagination`: raw offset and limit as parsed from the
request. -/
structure Pagination where
  offset : Int
  limit : Int
deriving DecidableEq

/-- collection.go `Pagination.Limit()`: a raw limit `≤ 0` is normalized to the
unlimited sentinel `math.MaxInt64`. -/
def Pagination.Limit (p : Pagination) : Int :=
  if p.limit ≤ 0 then maxInt64 else p.limit

/-- collection.go `Pagination.Offset()`: returns the raw offset unchanged. -/
def Pagination.Offset (p : Pagination) : Int := p.offset

/-- collection.go `loadPaginationInfo`: reads `offset` and `limit` from the
query parameters, defaulting each to 0 when absent, failing when a present
value does not parse as an `int64`. -/
def loadPaginationInfo (params : Values) : Except String Pagination :=
  let offsetStr := Values.get params "offset"
  match (if offsetStr = "" then some 0 else parseInt64 offsetStr) with
  | none => Except.error ( "Parsing offset " ++ offsetStr ++ " into int64")
  | some offset =>
    let limitStr := Values.get params "limit"
    match (if limitStr = "" then some 0 else parseInt64 limitStr) with
    | none => Except.error ( "Parsing limit " ++ limitStr ++ " into int")
    | some limit => Except.ok { offset := offset, limit := limit }

/-- persistence.go `DatabaseDAO.GetAllEntities` line 123: the two bind
parameters passed to the list query are `p.Offset()` and `p.Limit()`. -/
def getAllEntitiesBindArgs (p : Pagination) : Int × Int :=
  (Pagination.Offset p, Pagination.Limit p)

/-- collection.go `collectionURL`: deletes `offset` and `limit` from the shared
query-parameter map, then assembles the page URL string: base, then `?` when a
positive limit or leftover parameters exist, then the `offset=O&limit=L` pair
unless the limit is the unlimited sentinel, then the re-encoded leftover
parameters (appended, as in the source, with no separator).  The final
`url.Parse` is modelled as the identity.  Returns the URL and the map as
mutated. -/
def collectionURL (baseURL : String) (offset : Int) (limit : Int) (queryParams : Values) :
    String × Values :=
  let qp := Values.del (Values.del queryParams "offset") "limit"
  let paramsStr := Values.encode qp
  if 0 < limit ∨ paramsStr ≠ "" then
    let s := baseURL ++ "?"
    let s := if 0 < limit ∧ limit ≠ maxInt64 then
        s ++ "offset=" ++ toString offset ++ "&limit=" ++ toString limit
      else s
    let s := if paramsStr ≠ "" then s ++ paramsStr else s
    (s, qp)
  else (baseURL, qp)

/-- collection.go `generateLastURL` lines 93-97: the offset of the last page,
`(maxNbItems / limit - (1 when the division is exact)) * limit`, in wrapped
`int64` arithmetic.  There is no flooring at 0. -/
def lastOffset (maxNbItems limit : Int) : Int :=
  let nbPagesMinusOne := i64div maxNbItems limit
  let nbPages2 := if Int.tmod maxNbItems limit = 0 then i64sub nbPagesMinusOne 1 else nbPagesMinusOne
  i64mul nbPages2 limit

/-- collection.go `generateLastURL`: base URL unchanged for a non-positive
limit, otherwise the page URL at `lastOffset`. -/
def generateLastURL (baseURL : String) (offset limit maxNbItems : Int) (queryParams : Values) :
    String × Values :=
  if limit ≤ 0 then (baseURL, queryParams)
  else collectionURL baseURL (lastOffset maxNbItems limit) limit queryParams

/-- collection.go `generatePreviousURL`: base URL unchanged for a non-positive
limit; for `offset > 0` the page URL at `offset - limit` clamped at 0; else the
empty URL. -/
def generatePreviousURL (baseURL : String) (offset limit : Int) (queryParams : Values) :
    String × Values :=
  if limit ≤ 0 then (baseURL, queryParams)
  else if 0 < offset then
    let previousOffset := if i64sub offset limit < 0 then 0 else i64sub offset limit
    collectionURL baseURL previousOffset limit queryParams
  else ( "", queryParams)

/-- collection.go `generateNextURL`: base URL unchanged for a non-positive
limit; when `limit + offset < maxNBItems` (wrapped `int64` addition) the page
URL at `offset + limit`; else the empty URL. -/
def generateNextURL (baseURL : String) (offset limit maxNBItems : Int) (queryParams : Values) :
    String × Values :=
  if limit ≤ 0 then (baseURL, queryParams)
  else if i64add limit offset < maxNBItems then
    collectionURL baseURL (i64add offset limit) limit queryParams
  else ( "", queryParams)

/-- collection.go `CollectionResponse` (links modelled as the strings the code
builds). -/
structure CollectionResponse (α : Type) where
  Current : String
  First : String
  Last : String
  Previous : String
  Next : String
  Offset : Int
  Limit : Int
  TotalNumberOfItems : Int
  Items : List α
deriving DecidableEq

/-- collection.go `CollectionResponseBuilder.Build`: parses pagination from the
query parameters (aborting on failure), then builds the five links in source
order, threading the shared query-parameter map through every call.  Returns
the result together with the map as it stands when `Build` returns. -/
def CollectionResponseBuilder.Build {α : Type} (baseURL : String) (maxNBItems : Int)
    (queryParams : Values) (items : List α) :
    Except String (CollectionResponse α) × Values :=
  match loadPaginationInfo queryParams with
  | Except.error e =>
      (Except.error ( "Loading pagination info from url parameters: " ++ e), queryParams)
  | Except.ok pagination =>
    let c1 := collectionURL baseURL (Pagination.Offset pagination) (Pagination.Limit pagination)
        queryParams
    let c2 := collectionURL baseURL 0 (Pagination.Limit pagination) c1.2
    let c3 := generateLastURL baseURL (Pagination.Offset pagination) (Pagination.Limit pagination)
        maxNBItems c2.2
    let c4 := generatePreviousURL baseURL (Pagination.Offset pagination)
        (Pagination.Limit pagination) c3.2
    let c5 := generateNextURL baseURL (Pagination.Offset pagination) (Pagination.Limit pagination)
        maxNBItems c4.2
    (Except.ok
      { Current := c1.1, First := c2.1, Last := c3.1, Previous := c4.1, Next := c5.1,
        Offset := Pagination.Offset pagination, Limit := Pagination.Limit pagination,
        TotalNumberOfItems := maxNBItems, Items := items }, c5.2)

/-- persistence.go `IdentifiableEntity`: an entity payload together with an
optional identifier (identifiers are stringable and compared via their string
form, so they are modelled as strings).  `WithID` is modelled by setting the
`id` field, producing a new value. -/
structure IdEntity (α : Type) where
  id : Option String
  payload : α
deriving DecidableEq

/-- Modelled from the spec: the backing store reached through the Query
Catalog, a list of rows keyed by identifier.  The repository never interprets
the query strings itself. -/
structure Store (α : Type) where
  rows : List (String × α)
deriving DecidableEq

/-- Modelled from the spec: the Query Catalog's get statement selects exactly
the rows whose key equals the bound identifier. -/
def getQueryRows {α : Type} (st : Store α) (id : String) : List (String × α) :=
  List.filter (fun r => r.1 == id) st.rows

/-- persistence.go `Mapper.ToEntities` contract (spec section 4.1): each row
decodes to one entity; the canonical conforming mapper rebuilds the entity
from the key column and the payload. -/
def ToEntities {α : Type} (rows : List (String × α)) : List (IdEntity α) :=
  List.map (fun r => { id := some r.1, payload := r.2 }) rows

/-- Error kinds surfaced by the DAO model. -/
inductive DAOError where
  | ambiguousResult (id : String) (count : Nat)
  | executionError (msg : String)
deriving DecidableEq

/-- persistence.go `DatabaseDAO.Get` lines 166-187: runs the get query, decodes
the rows, fails when more than one entity comes back, yields `none` for zero
rows and the sole entity for one row. -/
def DatabaseDAO.Get {α : Type} (st : Store α) (id : String) :
    Except DAOError (Option (IdEntity α)) :=
  let entities := ToEntities (getQueryRows st id)
  let nbEntities := entities.length
  if nbEntities > 1 then Except.error (DAOError.ambiguousResult id nbEntities)
  else
    match entities with
    | [] => Except.ok none
    | e :: _ => Except.ok (some e)

/-- Modelled from the spec: the Query Catalog's insert statement adds one row
for the entity, keyed by its identifier (the flattened fields of spec section
4.1 are the key column plus the payload). -/
def insertExec {α : Type} (st : Store α) (e : IdEntity α) : Store α :=
  { rows := st.rows ++ [(Option.getD e.id "", e.payload)] }

/-- Modelled from the spec: the Query Catalog's update statement replaces the
payload of every row keyed by the entity identifier. -/
def updateExec {α : Type} (st : Store α) (e : IdEntity α) : Store α :=
  { rows := List.map (fun r => if r.1 == Option.getD e.id "" then (r.1, e.payload) else r)
      st.rows }

/-- Observable outcome of `DatabaseDAO.Set`: the returned identifier, the store
after the write, and which branch (insert or update) executed. -/
structure SetResult (α : Type) where
  id : String
  store : Store α
  inserted : Bool
deriving DecidableEq

/-- persistence.go `DatabaseDAO.Set` lines 189-228: with no identifier,
generate one, attach it and insert; with an identifier, `Get` it and insert
when absent, update when present; return `entity.ID()` of the (possibly
re-identified) entity.  `gen` models the `IdentifierGenerator`. -/
def DatabaseDAO.Set {α : Type} (gen : IdEntity α → String) (st : Store α)
    (entity : IdEntity α) : Except DAOError (SetResult α) :=
  match entity.id with
  | none =>
    let newId := gen entity
    let entity2 := { entity with id := some newId }
    Except.ok { id := Option.getD entity2.id "", store := insertExec st entity2, inserted := true }
  | some id =>
    match DatabaseDAO.Get st id with
    | Except.error e => Except.error e
    | Except.ok found =>
      if Option.isNone found then
        Except.ok { id := Option.getD entity.id "", store := insertExec st entity,
                    inserted := true }
      else
        Except.ok { id := Option.getD entity.id "", store := updateExec st entity,
                    inserted := false }

/-- Modelled from the spec: the Query Catalog's delete statement removes every
row keyed by the identifier and succeeds whether or not any row matched. -/
def deleteExec {α : Type} (st : Store α) (id : String) : Store α :=
  { rows := List.filter (fun r => r.1 != id) st.rows }

/-- persistence.go `DatabaseDAO.Delete` lines 230-236: runs the delete
statement and wraps a low-level execution failure; no existence check is
performed.  `execResult` is the outcome of the underlying statement
execution. -/
def DatabaseDAO.Delete {α : Type} (execResult : Except String (Store α)) :
    Except DAOError (Store α) :=
  match execResult with
  | Except.error msg => Except.error (DAOError.executionError msg)
  | Except.ok st => Except.ok st

/-- `DatabaseDAO.Delete` applied to the spec-modelled delete statement, which
itself never fails. -/
def dbDelete {α : Type} (st : Store α) (id : String) : Except DAOError (Store α) :=
  DatabaseDAO.Delete (Except.ok (deleteExec st id))

/-! Helper lemmas shared by the claim theorems. -/

theorem i64wrap_eq_self {x : Int} (h1 : -(2 ^ 63) ≤ x) (h2 : x ≤ 2 ^ 63 - 1) :
    i64wrap x = x := by
  unfold i64wrap
  omega

theorem pagination_limit_pos (p : Pagination) : 0 < Pagination.Limit p := by
  unfold Pagination.Limit maxInt64
  split
  · decide
  · omega

/-- Wrapped arithmetic reduction of `lastOffset` to natural-number division for
in-range non-negative totals and positive limits. -/
theorem lastOffset_nat (m n : Nat) (hn : 0 < n) (hm : (m : Int) ≤ maxInt64)
    (hn2 : (n : Int) ≤ maxInt64) :
    lastOffset (m : Int) (n : Int) =
      (((m / n : Nat) : Int) - (if m % n = 0 then 1 else 0)) * (n : Int) := by
  have hdiv : Int.tdiv (m : Int) (n : Int) = ((m / n : Nat) : Int) := rfl
  have hmod : Int.tmod (m : Int) (n : Int) = ((m % n : Nat) : Int) := rfl
  have hmax : maxInt64 = 2 ^ 63 - 1 := rfl
  have hq2i : ((m / n : Nat) : Int) * (n : Int) ≤ (m : Int) := by
    exact_mod_cast Nat.div_mul_le_self m n
  have hqnn : (0 : Int) ≤ ((m / n : Nat) : Int) := Int.natCast_nonneg _
  have hqle : ((m / n : Nat) : Int) ≤ (m : Int) := by exact_mod_cast Nat.div_le_self m n
  have hmnn : (0 : Int) ≤ (m : Int) := Int.natCast_nonneg _
  have hni : (0 : Int) < (n : Int) := by exact_mod_cast hn
  have w1 : i64wrap ((m / n : Nat) : Int) = ((m / n : Nat) : Int) :=
    i64wrap_eq_self (by omega) (by omega)
  unfold lastOffset i64div i64sub i64mul
  rw [hdiv, hmod, w1]
  show i64wrap ((if ((m % n : Nat) : Int) = 0
      then i64wrap (((m / n : Nat) : Int) - 1)
      else ((m / n : Nat) : Int)) * (n : Int)) =
    (((m / n : Nat) : Int) - (if m % n = 0 then 1 else 0)) * (n : Int)
  by_cases hr : m % n = 0
  · have hc : ((m % n : Nat) : Int) = 0 := by exact_mod_cast hr
    rw [if_pos hc, if_pos hr]
    have w2 : i64wrap (((m / n : Nat) : Int) - 1) = ((m / n : Nat) : Int) - 1 :=
      i64wrap_eq_self (by omega) (by omega)
    rw [w2]
    have hlow : (-1 : Int) * (n : Int) ≤ (((m / n : Nat) : Int) - 1) * (n : Int) :=
      mul_le_mul_of_nonneg_right (by omega) (by omega)
    have hhigh : (((m / n : Nat) : Int) - 1) * (n : Int) ≤ ((m / n : Nat) : Int) * (n : Int) :=
      mul_le_mul_of_nonneg_right (by omega) (by omega)
    exact i64wrap_eq_self (by omega) (by omega)
  · have hc : ((m % n : Nat) : Int) ≠ 0 := by
      intro h0
      exact hr (by exact_mod_cast h0)
    rw [if_neg hc, if_neg hr, sub_zero]
    have hlow : (0 : Int) ≤ ((m / n : Nat) : Int) * (n : Int) :=
      mul_nonneg hqnn (by omega)
    exact i64wrap_eq_self (by omega) (by omega)

/-- C1: the claimed formula `last.offset = max(0, (total/limit - (1 if
total%limit==0 else 0)) * limit)` fails on the code at `total = 0`: the code
computes `(0/5 - 1) * 5 = -5` with no flooring, and the last link carries
`offset=-5`, while the claimed formula gives 0. -/
theorem claim1_counterexample :
    lastOffset 0 5 = -5 ∧
    max 0 ((Int.tdiv 0 5 - (if Int.tmod 0 5 = 0 then 1 else 0)) * 5) = 0 ∧
    (generateLastURL "b" 0 5 0 []).1 = "b?offset=-5&limit=5" ∧
    lastOffset 0 5 ≠ max 0 ((Int.tdiv 0 5 - (if Int.tmod 0 5 = 0 then 1 else 0)) * 5) := by
  refine ⟨by decide, by decide, ?_, by decide⟩
  rfl

/-- C1 (amended): for `limit > 0` and `total ≥ 1` (both within int64 range) the
last offset computed by the collection link builder equals
`max(0, (total/limit - (1 if total%limit==0 else 0)) * limit)`; for
`total = 0` the code produces `-limit` instead, with no flooring at 0. -/
theorem claim1_last_offset (total limit : Int) (h1 : 0 < limit) (h2 : limit ≤ maxInt64)
    (h3 : 0 ≤ total) (h4 : total ≤ maxInt64) :
    (1 ≤ total → lastOffset total limit =
        max 0 ((Int.tdiv total limit - (if Int.tmod total limit = 0 then 1 else 0)) * limit)) ∧
    (total = 0 → lastOffset total limit = -limit) := by
  obtain ⟨m, rfl⟩ := Int.eq_ofNat_of_zero_le h3
  obtain ⟨n, rfl⟩ := Int.eq_ofNat_of_zero_le (le_of_lt h1)
  have hn : 0 < n := by exact_mod_cast h1
  have hdiv : Int.tdiv (m : Int) (n : Int) = ((m / n : Nat) : Int) := rfl
  have hmod : Int.tmod (m : Int) (n : Int) = ((m % n : Nat) : Int) := rfl
  have hqnn : (0 : Int) ≤ ((m / n : Nat) : Int) := Int.natCast_nonneg _
  have hni : (0 : Int) < (n : Int) := by exact_mod_cast hn
  have hkey := lastOffset_nat m n hn h4 h2
  constructor
  · intro hm1
    have hm1n : 1 ≤ m := by exact_mod_cast hm1
    rw [hkey, hdiv, hmod]
    by_cases hr : m % n = 0
    · have hc : ((m % n : Nat) : Int) = 0 := by exact_mod_cast hr
      have hq1 : 1 ≤ m / n := by
        by_contra hq0
        have hq0n : m / n = 0 := by omega
        have hdm := Nat.div_add_mod m n
        rw [hq0n, Nat.mul_zero, Nat.zero_add] at hdm
        omega
      have hq1i : (1 : Int) ≤ ((m / n : Nat) : Int) := by exact_mod_cast hq1
      rw [if_pos hc, if_pos hr]
      have hnn : (0 : Int) ≤ (((m / n : Nat) : Int) - 1) * (n : Int) :=
        mul_nonneg (by omega) (by omega)
      rw [max_eq_right hnn]
    · have hc : ((m % n : Nat) : Int) ≠ 0 := by
        intro h0
        exact hr (by exact_mod_cast h0)
      rw [if_neg hc, if_neg hr, sub_zero]
      have hnn : (0 : Int) ≤ ((m / n : Nat) : Int) * (n : Int) :=
        mul_nonneg hqnn (by omega)
      rw [max_eq_right hnn]
  · intro hm0
    have hm0n : m = 0 := by exact_mod_cast hm0
    subst hm0n
    rw [hkey]
    simp

/-- C1 witness: at `total = 7`, `limit = 3` the amended equality holds
concretely (`lastOffset 7 3 = 6`). -/
theorem claim1_last_offset_witness :
    lastOffset 7 3 =
      max 0 ((Int.tdiv 7 3 - (if Int.tmod 7 3 = 0 then 1 else 0)) * 3) :=
  (claim1_last_offset 7 3 (by decide) (by decide) (by decide) (by decide)).1 (by decide)

theorem collectionURL_snd (b : String) (o l : Int) (ps : Values) :
    (collectionURL b o l ps).2 = Values.del (Values.del ps "offset") "limit" := by
  simp only [collectionURL]
  split
  · rfl
  · rfl

theorem del_stable (vs : Values) :
    Values.del (Values.del (Values.del (Values.del vs "offset") "limit") "offset") "limit" =
      Values.del (Values.del vs "offset") "limit" := by
  have h : ∀ p ∈ Values.del (Values.del vs "offset") "limit",
      (p.1 != "offset") = true ∧ (p.1 != "limit") = true := by
    intro p hp
    rcases List.mem_filter.mp hp with ⟨hp2, hl⟩
    rcases List.mem_filter.mp hp2 with ⟨hmem, ho⟩
    exact ⟨ho, hl⟩
  have h1 : Values.del (Values.del (Values.del vs "offset") "limit") "offset" =
      Values.del (Values.del vs "offset") "limit" :=
    List.filter_eq_self.mpr (fun p hp => (h p hp).1)
  rw [h1]
  exact List.filter_eq_self.mpr (fun p hp => (h p hp).2)

theorem collectionURL_unlimited (b : String) (o : Int) (ps : Values) :
    collectionURL b o maxInt64 ps =
      (b ++ "?" ++ Values.encode (Values.del (Values.del ps "offset") "limit"),
        Values.del (Values.del ps "offset") "limit") := by
  simp only [collectionURL]
  rw [if_pos (Or.inl (by decide : (0 : Int) < maxInt64))]
  rw [if_neg (show ¬ (0 < maxInt64 ∧ maxInt64 ≠ maxInt64) from fun hc => hc.2 rfl)]
  by_cases he : Values.encode (Values.del (Values.del ps "offset") "limit") = ""
  · rw [if_neg (show ¬ Values.encode (Values.del (Values.del ps "offset") "limit") ≠ ""
        from fun hne => hne he)]
    rw [he, String.append_empty]
  · rw [if_pos (show Values.encode (Values.del (Values.del ps "offset") "limit") ≠ ""
        from he)]

theorem collectionURL_unlimited_stable (b : String) (o : Int) (vs : Values) :
    collectionURL b o maxInt64 (Values.del (Values.del vs "offset") "limit") =
      (b ++ "?" ++ Values.encode (Values.del (Values.del vs "offset") "limit"),
        Values.del (Values.del vs "offset") "limit") := by
  rw [collectionURL_unlimited, del_stable]

theorem generateLastURL_unlimited (b : String) (o t : Int) (ps : Values) :
    generateLastURL b o maxInt64 t ps =
      collectionURL b (lastOffset t maxInt64) maxInt64 ps := by
  unfold generateLastURL
  rw [if_neg (by decide : ¬ maxInt64 ≤ 0)]

theorem generatePreviousURL_unlimited_stable (b : String) (o : Int) (vs : Values) :
    generatePreviousURL b o maxInt64 (Values.del (Values.del vs "offset") "limit") =
      ((if 0 < o then b ++ "?" ++ Values.encode (Values.del (Values.del vs "offset") "limit")
          else ""),
        Values.del (Values.del vs "offset") "limit") := by
  unfold generatePreviousURL
  rw [if_neg (by decide : ¬ maxInt64 ≤ 0)]
  by_cases ho : 0 < o
  · rw [if_pos ho, if_pos ho, collectionURL_unlimited_stable]
  · rw [if_neg ho, if_neg ho]

theorem generateNextURL_unlimited_stable (b : String) (o t : Int) (vs : Values) :
    generateNextURL b o maxInt64 t (Values.del (Values.del vs "offset") "limit") =
      ((if i64add maxInt64 o < t
          then b ++ "?" ++ Values.encode (Values.del (Values.del vs "offset") "limit")
          else ""),
        Values.del (Values.del vs "offset") "limit") := by
  unfold generateNextURL
  rw [if_neg (by decide : ¬ maxInt64 ≤ 0)]
  by_cases hc : i64add maxInt64 o < t
  · rw [if_pos hc, if_pos hc, collectionURL_unlimited_stable]
  · rw [if_neg hc, if_neg hc]

theorem collectionURL_ne_empty (b : String) (o l : Int) (ps : Values) (h : 0 < l) :
    (collectionURL b o l ps).1 ≠ "" := by
  simp only [collectionURL]
  rw [if_pos (Or.inl h)]
  have hq : ( "?" : String).length = 1 := rfl
  have he : ( "" : String).length = 0 := rfl
  split_ifs <;>
    · intro heq
      have hlen := congrArg String.length heq
      simp only [String.length_append] at hlen
      omega

theorem collectionURL_pair (b : String) (o l : Int) (ps : Values) (h : 0 < l)
    (h2 : l ≠ maxInt64) :
    ∃ rest, (collectionURL b o l ps).1 =
      b ++ "?" ++ "offset=" ++ toString o ++ "&limit=" ++ rest := by
  simp only [collectionURL]
  rw [if_pos (Or.inl h), if_pos (show 0 < l ∧ l ≠ maxInt64 from ⟨h, h2⟩)]
  by_cases he : Values.encode (Values.del (Values.del ps "offset") "limit") = ""
  · rw [if_neg (show ¬ Values.encode (Values.del (Values.del ps "offset") "limit") ≠ ""
        from fun hne => hne he)]
    exact ⟨toString l, rfl⟩
  · rw [if_pos (show Values.encode (Values.del (Values.del ps "offset") "limit") ≠ ""
        from he)]
    exact ⟨toString l ++ Values.encode (Values.del (Values.del ps "offset") "limit"),
      String.append_assoc _ _ _⟩

/-- C2: the claim that for `limit ≤ 0` all five links built by
`CollectionResponseBuilder.Build` equal the unmodified base URI is false:
`Build` normalizes the limit to `MaxInt64` before link construction, so the
dead `limit <= 0` branches of the generators never run; with `limit = 0` and
offset 0 the previous and next links are the empty URL, and the current link
carries a trailing `?`. -/
theorem claim2_counterexample :
    (CollectionResponseBuilder.Build "http://h/r" 3 [( "limit", [ "0" ])] ([] : List Nat)).1 =
      Except.ok
        { Current := "http://h/r?", First := "http://h/r?", Last := "http://h/r?",
          Previous := "", Next := "", Offset := 0, Limit := maxInt64,
          TotalNumberOfItems := 3, Items := [] } ∧
    ( "" : String) ≠ "http://h/r" ∧
    ( "http://h/r?" : String) ≠ "http://h/r" := by
  refine ⟨?_, by decide, by decide⟩
  rfl

/-- C2 (amended): for a request whose parsed limit is `≤ 0`, `Build` normalizes
the limit to `MaxInt64`, and no `offset`/`limit` query parameters are appended
to any link; the current, first and last links all equal the base URI plus `?`
plus the re-encoded remaining parameters; the previous link equals that same
URL when `offset > 0` and is the empty URL otherwise; the next link equals
that same URL when the wrapped sum `MaxInt64 + offset` is below the total and
is the empty URL otherwise. -/
theorem claim2_unlimited_links {α : Type} (baseURL : String) (maxNB : Int) (params : Values)
    (items : List α) (p : Pagination) (h : loadPaginationInfo params = Except.ok p)
    (hl : p.limit ≤ 0) :
    ∃ resp : CollectionResponse α,
      (CollectionResponseBuilder.Build baseURL maxNB params items).1 = Except.ok resp ∧
      resp.Current =
        baseURL ++ "?" ++ Values.encode (Values.del (Values.del params "offset") "limit") ∧
      resp.First = resp.Current ∧
      resp.Last = resp.Current ∧
      resp.Previous = (if 0 < p.offset then resp.Current else "") ∧
      resp.Next = (if i64add maxInt64 p.offset < maxNB then resp.Current else "") ∧
      resp.Limit = maxInt64 := by
  have hL : Pagination.Limit p = maxInt64 := by
    unfold Pagination.Limit
    rw [if_pos hl]
  simp only [CollectionResponseBuilder.Build, h, hL, Pagination.Offset,
    collectionURL_unlimited, del_stable, collectionURL_unlimited_stable,
    generateLastURL_unlimited, generatePreviousURL_unlimited_stable,
    generateNextURL_unlimited_stable]
  exact ⟨_, rfl, rfl, rfl, rfl, rfl, rfl, rfl⟩

/-- C2 witness: a concrete unlimited request (`limit=0`, one leftover
parameter) instantiating the amended statement. -/
theorem claim2_unlimited_links_witness :
    ∃ resp : CollectionResponse Nat,
      (CollectionResponseBuilder.Build "http://h/r" 3
          [( "limit", [ "0" ]), ( "a", [ "1" ])] ([] : List Nat)).1 = Except.ok resp ∧
      resp.Current = "http://h/r" ++ "?" ++
        Values.encode (Values.del (Values.del [( "limit", [ "0" ]), ( "a", [ "1" ])]
          "offset") "limit") ∧
      resp.First = resp.Current ∧
      resp.Last = resp.Current ∧
      resp.Previous =
        (if 0 < (Pagination.mk 0 0).offset then resp.Current else "") ∧
      resp.Next =
        (if i64add maxInt64 (Pagination.mk 0 0).offset < 3 then resp.Current else "") ∧
      resp.Limit = maxInt64 :=
  claim2_unlimited_links "http://h/r" 3 [( "limit", [ "0" ]), ( "a", [ "1" ])]
    ([] : List Nat) (Pagination.mk 0 0) (by rfl) (by decide)

/-- C3: the claim that the next link is present iff `offset + limit < total` in
exact integer arithmetic fails: the code compares the wrapped int64 sum, so at
`offset = MaxInt64`, `limit = 1`, `total = 0` the exact sum `2^63` is not below
0, yet the code wraps it to `MinInt64 < 0` and emits a next link (with a
wrapped negative offset). -/
theorem claim3_counterexample :
    (generateNextURL "b" (2 ^ 63 - 1) 1 0 []).1 = "b?offset=-9223372036854775808&limit=1" ∧
    (generateNextURL "b" (2 ^ 63 - 1) 1 0 []).1 ≠ "" ∧
    ¬ ((2 ^ 63 - 1 : Int) + 1 < 0) := by
  refine ⟨?_, by decide, by decide⟩
  rfl

/-- C3 (amended): for `offset ≥ 0` and `limit > 0` (within int64 range) the
next link is present iff the wrapped int64 sum `limit + offset` is below the
total, and when present (and the limit is not the unlimited sentinel) its
offset parameter is the wrapped sum; the wrapped sum coincides with the exact
sum `offset + limit` whenever that sum does not exceed `MaxInt64`. -/
theorem claim3_next_link (base : String) (offset limit total : Int) (params : Values)
    (h1 : 0 ≤ offset) (h2 : offset ≤ maxInt64) (h3 : 0 < limit) (h4 : limit ≤ maxInt64) :
    ((generateNextURL base offset limit total params).1 = "" ↔
      ¬ i64add limit offset < total) ∧
    (i64add limit offset < total → limit ≠ maxInt64 →
      ∃ rest, (generateNextURL base offset limit total params).1 =
        base ++ "?" ++ "offset=" ++ toString (i64add offset limit) ++ "&limit=" ++ rest) ∧
    (offset + limit ≤ maxInt64 → i64add limit offset = offset + limit) := by
  have hmax : maxInt64 = 2 ^ 63 - 1 := rfl
  have hnot : ¬ limit ≤ 0 := by omega
  refine ⟨?_, ?_, ?_⟩
  · unfold generateNextURL
    rw [if_neg hnot]
    by_cases hc : i64add limit offset < total
    · rw [if_pos hc]
      constructor
      · intro he
        exact absurd he (collectionURL_ne_empty base (i64add offset limit) limit params h3)
      · intro hn
        exact (hn hc).elim
    · rw [if_neg hc]
      exact ⟨fun _ => hc, fun _ => rfl⟩
  · intro hc hml
    unfold generateNextURL
    rw [if_neg hnot, if_pos hc]
    exact collectionURL_pair base (i64add offset limit) limit params h3 hml
  · intro hs
    unfold i64add
    rw [i64wrap_eq_self (by omega) (by omega)]
    exact add_comm limit offset

/-- C3 witness: at `offset = 3`, `limit = 2`, `total = 10` the next link is
present with offset parameter 5. -/
theorem claim3_next_link_witness :
    ∃ rest, (generateNextURL "b" 3 2 10 []).1 =
      "b" ++ "?" ++ "offset=" ++ toString (i64add 3 2) ++ "&limit=" ++ rest :=
  (claim3_next_link "b" 3 2 10 [] (by decide) (by decide) (by decide) (by decide)).2.1
    (by decide) (by decide)

/-- C4: for `offset ≥ 0` and `limit > 0` (within int64 range) the previous
link is absent exactly when `offset = 0`, and otherwise it is the page URL at
offset `max 0 (offset - limit)`; when the limit is not the unlimited sentinel
that offset is visible as the `offset=` parameter of the link. -/
theorem claim4_previous_link (base : String) (offset limit : Int) (params : Values)
    (h1 : 0 ≤ offset) (h2 : offset ≤ maxInt64) (h3 : 0 < limit) (h4 : limit ≤ maxInt64) :
    ((generatePreviousURL base offset limit params).1 = "" ↔ offset = 0) ∧
    (0 < offset → generatePreviousURL base offset limit params =
      collectionURL base (max 0 (offset - limit)) limit params) ∧
    (0 < offset → limit ≠ maxInt64 →
      ∃ rest, (generatePreviousURL base offset limit params).1 =
        base ++ "?" ++ "offset=" ++ toString (max 0 (offset - limit)) ++ "&limit=" ++ rest) := by
  have hmax : maxInt64 = 2 ^ 63 - 1 := rfl
  have hnot : ¬ limit ≤ 0 := by omega
  have hw : i64sub offset limit = offset - limit := by
    unfold i64sub
    exact i64wrap_eq_self (by omega) (by omega)
  have hprev : 0 < offset → generatePreviousURL base offset limit params =
      collectionURL base (max 0 (offset - limit)) limit params := by
    intro ho
    unfold generatePreviousURL
    rw [if_neg hnot, if_pos ho, hw]
    by_cases hneg : offset - limit < 0
    · rw [if_pos hneg, max_eq_left (show offset - limit ≤ 0 by omega)]
    · rw [if_neg hneg, max_eq_right (show 0 ≤ offset - limit by omega)]
  refine ⟨?_, hprev, ?_⟩
  · constructor
    · intro he
      by_contra hne
      have ho : 0 < offset := by omega
      rw [hprev ho] at he
      exact collectionURL_ne_empty base (max 0 (offset - limit)) limit params h3 he
    · intro h0
      unfold generatePreviousURL
      rw [if_neg hnot, if_neg (show ¬ 0 < offset by omega)]
  · intro ho hml
    rw [hprev ho]
    exact collectionURL_pair base (max 0 (offset - limit)) limit params h3 hml

/-- C4 witness: at `offset = 5`, `limit = 3` the previous link is present at
offset 2, and the absence criterion is the concrete iff. -/
theorem claim4_previous_link_witness :
    ((generatePreviousURL "b" 5 3 []).1 = "" ↔ (5 : Int) = 0) ∧
    generatePreviousURL "b" 5 3 [] = collectionURL "b" (max 0 (5 - 3)) 3 [] :=
  ⟨(claim4_previous_link "b" 5 3 [] (by decide) (by decide) (by decide) (by decide)).1,
    (claim4_previous_link "b" 5 3 [] (by decide) (by decide) (by decide)
      (by decide)).2.1 (by decide)⟩

theorem set_insert_no_id {α : Type} (gen : IdEntity α → String) (st : Store α)
    (e : IdEntity α) (h : e.id = none) :
    DatabaseDAO.Set gen st e =
      Except.ok
        { id := gen e, store := insertExec st { e with id := some (gen e) },
          inserted := true } := by
  simp [DatabaseDAO.Set, h]

/-- C5: `Set` selects the insert branch when the entity has no identifier
(after generating and attaching a fresh one, which it returns) or when `Get`
on the supplied identifier reports absence (returning the supplied
identifier), and selects the update branch, returning the originally supplied
identifier, when `Get` finds the entity. -/
theorem claim5_set_branches {α : Type} (gen : IdEntity α → String) (st : Store α)
    (e : IdEntity α) :
    (e.id = none → DatabaseDAO.Set gen st e =
      Except.ok
        { id := gen e, store := insertExec st { e with id := some (gen e) },
          inserted := true }) ∧
    (∀ i, e.id = some i → DatabaseDAO.Get st i = Except.ok none →
      DatabaseDAO.Set gen st e =
        Except.ok { id := i, store := insertExec st e, inserted := true }) ∧
    (∀ i x, e.id = some i → DatabaseDAO.Get st i = Except.ok (some x) →
      DatabaseDAO.Set gen st e =
        Except.ok { id := i, store := updateExec st e, inserted := false }) := by
  refine ⟨set_insert_no_id gen st e, ?_, ?_⟩
  · intro i hi hget
    simp [DatabaseDAO.Set, hi, hget]
  · intro i x hi hget
    simp [DatabaseDAO.Set, hi, hget]

/-- C5 witness: the three branches at concrete stores and entities: fresh
insert with generated identifier `g`, insert of an absent supplied identifier
`k`, update of a present identifier `k`. -/
theorem claim5_set_branches_witness :
    (DatabaseDAO.Set (fun _ => "g") (Store.mk ([] : List (String × Nat)))
        (IdEntity.mk none 7) =
      Except.ok
        { id := "g",
          store := insertExec (Store.mk ([] : List (String × Nat))) (IdEntity.mk (some "g") 7),
          inserted := true }) ∧
    (DatabaseDAO.Set (fun _ => "g") (Store.mk ([( "j", 1)] : List (String × Nat)))
        (IdEntity.mk (some "k") 7) =
      Except.ok
        { id := "k",
          store := insertExec (Store.mk [( "j", 1)]) (IdEntity.mk (some "k") 7),
          inserted := true }) ∧
    (DatabaseDAO.Set (fun _ => "g") (Store.mk ([( "k", 1)] : List (String × Nat)))
        (IdEntity.mk (some "k") 7) =
      Except.ok
        { id := "k",
          store := updateExec (Store.mk [( "k", 1)]) (IdEntity.mk (some "k") 7),
          inserted := false }) :=
  ⟨(claim5_set_branches (fun _ => "g") (Store.mk []) (IdEntity.mk none 7)).1 rfl,
    (claim5_set_branches (fun _ => "g") (Store.mk [( "j", 1)])
      (IdEntity.mk (some "k") 7)).2.1 "k" rfl (by rfl),
    (claim5_set_branches (fun _ => "g") (Store.mk [( "k", 1)])
      (IdEntity.mk (some "k") 7)).2.2 "k" (IdEntity.mk (some "k") 1) rfl (by rfl)⟩

/-- C6: `Get` fails with the ambiguous-result error when the get query returns
more than one row, returns absence without error on zero rows, and returns the
sole decoded entity on exactly one row. -/
theorem claim6_get_cases {α : Type} (st : Store α) (id : String) :
    ((getQueryRows st id).length > 1 →
      DatabaseDAO.Get st id =
        Except.error (DAOError.ambiguousResult id (getQueryRows st id).length)) ∧
    ((getQueryRows st id).length = 0 → DatabaseDAO.Get st id = Except.ok none) ∧
    (∀ k v, getQueryRows st id = [(k, v)] →
      DatabaseDAO.Get st id = Except.ok (some { id := some k, payload := v })) := by
  have hlen : (ToEntities (getQueryRows st id)).length = (getQueryRows st id).length :=
    List.length_map _ _
  refine ⟨?_, ?_, ?_⟩
  · intro hgt
    simp only [DatabaseDAO.Get]
    rw [if_pos (show (ToEntities (getQueryRows st id)).length > 1 from by
      rw [hlen]; exact hgt)]
    rw [hlen]
  · intro h0
    have hr : getQueryRows st id = [] := List.length_eq_zero.mp h0
    simp [DatabaseDAO.Get, hr, ToEntities]
  · intro k v hr
    simp [DatabaseDAO.Get, hr, ToEntities]

/-- C6 witness: two rows for identifier `a` give the ambiguous error; zero rows
give absence; a single row yields its entity. -/
theorem claim6_get_cases_witness :
    (DatabaseDAO.Get (Store.mk ([( "a", 1), ( "a", 2)] : List (String × Nat))) "a" =
      Except.error (DAOError.ambiguousResult "a"
        (getQueryRows (Store.mk ([( "a", 1), ( "a", 2)] : List (String × Nat))) "a").length)) ∧
    (DatabaseDAO.Get (Store.mk ([] : List (String × Nat))) "a" = Except.ok none) ∧
    (DatabaseDAO.Get (Store.mk ([( "a", 1)] : List (String × Nat))) "a" =
      Except.ok (some { id := some "a", payload := 1 })) :=
  ⟨(claim6_get_cases (Store.mk [( "a", 1), ( "a", 2)]) "a").1 (by decide),
    (claim6_get_cases (Store.mk ([] : List (String × Nat))) "a").2.1 (by decide),
    (claim6_get_cases (Store.mk [( "a", 1)]) "a").2.2 "a" 1 (by rfl)⟩

/-- C7: for an entity without identifier, a successful `Set` returning the
generated identifier followed by `Get` on that identifier (the generated
identifier being fresh for the store) yields the input entity with the
identifier attached. -/
theorem claim7_set_get_roundtrip {α : Type} (gen : IdEntity α → String) (st : Store α)
    (e : IdEntity α) (h1 : e.id = none) (h2 : getQueryRows st (gen e) = []) :
    ∃ r : SetResult α, DatabaseDAO.Set gen st e = Except.ok r ∧ r.id = gen e ∧
      DatabaseDAO.Get r.store r.id = Except.ok (some { e with id := some (gen e) }) := by
  refine
    ⟨{ id := gen e, store := insertExec st { e with id := some (gen e) },
       inserted := true }, set_insert_no_id gen st e h1, rfl, ?_⟩
  have hq : getQueryRows (insertExec st { e with id := some (gen e) }) (gen e) =
      [(gen e, e.payload)] := by
    unfold getQueryRows insertExec
    rw [List.filter_append]
    have h2u : List.filter (fun r => r.1 == gen e) st.rows = [] := h2
    rw [h2u]
    simp
  simp [DatabaseDAO.Get, hq, ToEntities]

/-- C7 witness: inserting an identifier-less entity with payload 7 into a store
holding an unrelated row, then getting the generated identifier `g`, returns
the entity with `g` attached. -/
theorem claim7_set_get_roundtrip_witness :
    ∃ r : SetResult Nat,
      DatabaseDAO.Set (fun _ => "g") (Store.mk [( "z", 5)]) (IdEntity.mk none 7) =
        Except.ok r ∧
      r.id = "g" ∧
      DatabaseDAO.Get r.store r.id = Except.ok (some (IdEntity.mk (some "g") 7)) :=
  claim7_set_get_roundtrip (fun _ => "g") (Store.mk [( "z", 5)]) (IdEntity.mk none 7)
    rfl (by rfl)

/-- C8: `Delete` performs no existence check: it succeeds on every store and
identifier, leaves the store unchanged when no row matches, and surfaces an
error exactly when the underlying delete execution itself fails. -/
theorem claim8_delete_no_check {α : Type} (st : Store α) (id : String) :
    (∃ st2, dbDelete st id = Except.ok st2) ∧
    ((∀ r ∈ st.rows, r.1 ≠ id) → dbDelete st id = Except.ok st) ∧
    (∀ msg, DatabaseDAO.Delete (α := α) (Except.error msg) =
      Except.error (DAOError.executionError msg)) := by
  refine ⟨⟨deleteExec st id, rfl⟩, ?_, fun msg => rfl⟩
  intro hno
  unfold dbDelete DatabaseDAO.Delete deleteExec
  have hf : List.filter (fun r => r.1 != id) st.rows = st.rows :=
    List.filter_eq_self.mpr (fun a ha => by simpa using hno a ha)
  rw [hf]

/-- C8 witness: deleting identifier `k` from a store holding only a `j` row
succeeds and leaves the store unchanged. -/
theorem claim8_delete_no_check_witness :
    dbDelete (Store.mk ([( "j", 1)] : List (String × Nat))) "k" =
      Except.ok (Store.mk [( "j", 1)]) :=
  (claim8_delete_no_check (Store.mk [( "j", 1)]) "k").2.1 (by decide)

/-- C9: the claim fails as universally stated: a map whose offset value parses
(`-5`) but whose limit value does not (`x`) makes `loadPaginationInfo` fail,
so a parsable offset alone does not guarantee success. -/
theorem claim9_counterexample :
    parseInt64 (Values.get [( "offset", [ "-5" ]), ( "limit", [ "x" ])] "offset") =
      some (-5) ∧
    loadPaginationInfo [( "offset", [ "-5" ]), ( "limit", [ "x" ])] =
      Except.error "Parsing limit x into int" :=
  ⟨by rfl, by rfl⟩

/-- C9 (amended): for every query-parameter map whose offset value parses as an
int64 (any value, negative included) and whose limit value is absent or parses
as an int64, `loadPaginationInfo` succeeds and the resulting `Offset()` is the
parsed value unchanged — never rejected or clamped at 0.  That raw value flows
unmodified into DAO query binding (it is exactly what `GetAllEntities` binds
into the list query) and into link construction: `Build` succeeds, the
response carries `Offset = v`, and whenever the normalized limit is not the
unlimited sentinel the current link carries the parameter `offset=v`. -/
theorem claim9_offset_passthrough {α : Type} (params : Values) (v : Int) (b : String)
    (t : Int) (items : List α)
    (hO : parseInt64 (Values.get params "offset") = some v)
    (hL : Values.get params "limit" = "" ∨
      ∃ w, parseInt64 (Values.get params "limit") = some w) :
    ∃ p : Pagination, loadPaginationInfo params = Except.ok p ∧
      Pagination.Offset p = v ∧ (getAllEntitiesBindArgs p).1 = v ∧
      ∃ resp : CollectionResponse α,
        (CollectionResponseBuilder.Build b t params items).1 = Except.ok resp ∧
        resp.Offset = v ∧
        (Pagination.Limit p ≠ maxInt64 →
          ∃ rest, resp.Current =
            b ++ "?" ++ "offset=" ++ toString v ++ "&limit=" ++ rest) := by
  have hpe : parseInt64 "" = none := rfl
  have hne : Values.get params "offset" ≠ "" := by
    intro h0
    rw [h0, hpe] at hO
    exact Option.noConfusion hO
  have hbuild : ∀ p2 : Pagination, loadPaginationInfo params = Except.ok p2 →
      ∃ resp : CollectionResponse α,
        (CollectionResponseBuilder.Build b t params items).1 = Except.ok resp ∧
        resp.Offset = Pagination.Offset p2 ∧
        resp.Current =
          (collectionURL b (Pagination.Offset p2) (Pagination.Limit p2) params).1 := by
    intro p2 h2
    simp only [CollectionResponseBuilder.Build, h2]
    exact ⟨_, rfl, rfl, rfl⟩
  have main : ∀ p2 : Pagination, loadPaginationInfo params = Except.ok p2 →
      Pagination.Offset p2 = v →
      ∃ resp : CollectionResponse α,
        (CollectionResponseBuilder.Build b t params items).1 = Except.ok resp ∧
        resp.Offset = v ∧
        (Pagination.Limit p2 ≠ maxInt64 →
          ∃ rest, resp.Current =
            b ++ "?" ++ "offset=" ++ toString v ++ "&limit=" ++ rest) := by
    intro p2 h2 hv
    obtain ⟨resp, hr1, hr2, hr3⟩ := hbuild p2 h2
    refine ⟨resp, hr1, by rw [hr2, hv], ?_⟩
    intro hml
    obtain ⟨rest, hc⟩ := collectionURL_pair b (Pagination.Offset p2) (Pagination.Limit p2)
      params (pagination_limit_pos p2) hml
    refine ⟨rest, ?_⟩
    rw [hr3, hc, hv]
  rcases hL with hL | ⟨w, hL⟩
  · have h2 : loadPaginationInfo params = Except.ok (Pagination.mk v 0) := by
      simp [loadPaginationInfo, hne, hO, hL]
    exact ⟨Pagination.mk v 0, h2, rfl, rfl, main (Pagination.mk v 0) h2 rfl⟩
  · have hneL : Values.get params "limit" ≠ "" := by
      intro h0
      rw [h0, hpe] at hL
      exact Option.noConfusion hL
    have h2 : loadPaginationInfo params = Except.ok (Pagination.mk v w) := by
      simp [loadPaginationInfo, hne, hneL, hO, hL]
    exact ⟨Pagination.mk v w, h2, rfl, rfl, main (Pagination.mk v w) h2 rfl⟩

/-- C9 witness: offset `-7` with limit 3 flows through unchanged into the
pagination value, the DAO bind arguments, and the current link of a concrete
`Build` call. -/
theorem claim9_offset_passthrough_witness :
    ∃ p : Pagination,
      loadPaginationInfo [( "offset", [ "-7" ]), ( "limit", [ "3" ])] = Except.ok p ∧
      Pagination.Offset p = -7 ∧
      (getAllEntitiesBindArgs p).1 = -7 ∧
      ∃ resp : CollectionResponse Nat,
        (CollectionResponseBuilder.Build "base" 9
            [( "offset", [ "-7" ]), ( "limit", [ "3" ])] ([] : List Nat)).1 =
          Except.ok resp ∧
        resp.Offset = -7 ∧
        (Pagination.Limit p ≠ maxInt64 →
          ∃ rest, resp.Current =
            "base" ++ "?" ++ "offset=" ++ toString (-7 : Int) ++ "&limit=" ++ rest) :=
  claim9_offset_passthrough [( "offset", [ "-7" ]), ( "limit", [ "3" ])] (-7) "base" 9
    ([] : List Nat) (by rfl) (Or.inr ⟨3, by rfl⟩)

theorem generateLastURL_snd (b : String) (o l t : Int) (ps : Values) (h : 0 < l) :
    (generateLastURL b o l t ps).2 = Values.del (Values.del ps "offset") "limit" := by
  unfold generateLastURL
  rw [if_neg (show ¬ l ≤ 0 by omega)]
  exact collectionURL_snd b (lastOffset t l) l ps

theorem generatePreviousURL_snd_stable (b : String) (o l : Int) (vs : Values) (h : 0 < l) :
    (generatePreviousURL b o l (Values.del (Values.del vs "offset") "limit")).2 =
      Values.del (Values.del vs "offset") "limit" := by
  simp only [generatePreviousURL]
  rw [if_neg (show ¬ l ≤ 0 by omega)]
  by_cases ho : 0 < o
  · rw [if_pos ho, collectionURL_snd]
    exact del_stable vs
  · rw [if_neg ho]

theorem generateNextURL_snd_stable (b : String) (o l t : Int) (vs : Values) (h : 0 < l) :
    (generateNextURL b o l t (Values.del (Values.del vs "offset") "limit")).2 =
      Values.del (Values.del vs "offset") "limit" := by
  simp only [generateNextURL]
  rw [if_neg (show ¬ l ≤ 0 by omega)]
  by_cases hc : i64add l o < t
  · rw [if_pos hc, collectionURL_snd]
    exact del_stable vs
  · rw [if_neg hc]

theorem build_snd_parsed {α : Type} (b : String) (t : Int) (params : Values)
    (items : List α) (p : Pagination) (h : loadPaginationInfo params = Except.ok p) :
    (CollectionResponseBuilder.Build b t params items).2 =
      Values.del (Values.del params "offset") "limit" := by
  have hpos := pagination_limit_pos p
  simp only [CollectionResponseBuilder.Build, h]
  rw [collectionURL_snd, collectionURL_snd, del_stable,
    generateLastURL_snd _ _ _ _ _ hpos, generatePreviousURL_snd_stable _ _ _ _ hpos,
    generateNextURL_snd_stable _ _ _ _ _ hpos]
  exact del_stable params

theorem find?_del_ne (vs : Values) (k k2 : String) (h : k ≠ k2) :
    List.find? (fun q => q.1 == k) (Values.del vs k2) =
      List.find? (fun q => q.1 == k) vs := by
  induction vs with
  | nil => rfl
  | cons a rest ih =>
    unfold Values.del at ih ⊢
    rw [List.filter_cons]
    by_cases ha : a.1 = k2
    · rw [if_neg (by simp [ha])]
      rw [List.find?_cons_of_neg _ (by simp [ha]; exact Ne.symm h)]
      exact ih
    · rw [if_pos (by simp [ha])]
      by_cases hak : a.1 = k
      · rw [List.find?_cons_of_pos _ (by simp [hak]),
          List.find?_cons_of_pos _ (by simp [hak])]
      · rw [List.find?_cons_of_neg _ (by simp [hak]),
          List.find?_cons_of_neg _ (by simp [hak])]
        exact ih

theorem find?_offset_none (vs : Values) :
    List.find? (fun q => q.1 == "offset")
      (Values.del (Values.del vs "offset") "limit") = none := by
  apply List.find?_eq_none.mpr
  intro a ha
  rcases List.mem_filter.mp ha with ⟨ha2, hl⟩
  rcases List.mem_filter.mp ha2 with ⟨hmem, ho⟩
  simpa using ho

theorem find?_limit_none (vs : Values) :
    List.find? (fun q => q.1 == "limit")
      (Values.del (Values.del vs "offset") "limit") = none := by
  apply List.find?_eq_none.mpr
  intro a ha
  rcases List.mem_filter.mp ha with ⟨ha2, hl⟩
  simpa using hl

/-- C10: the claim that every `Build` call deletes `offset`/`limit` from the
caller map is false: when pagination parsing fails (offset `zz`), `Build`
aborts before any link construction and the map is untouched, the `offset`
entry still present. -/
theorem claim10_counterexample :
    (CollectionResponseBuilder.Build "b" 0 [( "offset", [ "zz" ])] ([] : List Nat)).2 =
      [( "offset", [ "zz" ])] ∧
    List.find? (fun q => q.1 == "offset")
      (CollectionResponseBuilder.Build "b" 0 [( "offset", [ "zz" ])] ([] : List Nat)).2 =
      some ( "offset", [ "zz" ]) :=
  ⟨by rfl, by rfl⟩

/-- C10 (amended): every `Build` call whose pagination parameters parse deletes
the keys `offset` and `limit` from the caller-supplied map (shared by
reference with link construction) and leaves every other key and its values
unchanged; a call that fails pagination parsing returns with the map
untouched. -/
theorem claim10_build_param_mutation {α : Type} (b : String) (t : Int) (params : Values)
    (items : List α) :
    (∀ p, loadPaginationInfo params = Except.ok p →
      (CollectionResponseBuilder.Build b t params items).2 =
        Values.del (Values.del params "offset") "limit" ∧
      List.find? (fun q => q.1 == "offset")
        (CollectionResponseBuilder.Build b t params items).2 = none ∧
      List.find? (fun q => q.1 == "limit")
        (CollectionResponseBuilder.Build b t params items).2 = none ∧
      (∀ k, k ≠ "offset" → k ≠ "limit" →
        List.find? (fun q => q.1 == k)
          (CollectionResponseBuilder.Build b t params items).2 =
          List.find? (fun q => q.1 == k) params)) ∧
    (∀ msg, loadPaginationInfo params = Except.error msg →
      (CollectionResponseBuilder.Build b t params items).2 = params) := by
  constructor
  · intro p h
    have hsnd := build_snd_parsed b t params items p h
    refine ⟨hsnd, ?_, ?_, ?_⟩
    · rw [hsnd]
      exact find?_offset_none params
    · rw [hsnd]
      exact find?_limit_none params
    · intro k hk1 hk2
      rw [hsnd]
      rw [find?_del_ne _ _ _ hk2, find?_del_ne _ _ _ hk1]
  · intro msg h
    simp only [CollectionResponseBuilder.Build, h]

/-- C10 witness: a successful `Build` with offset 2, limit 5 and one user
parameter `q=x` leaves exactly the `q` entry, and the `q` lookup is
unchanged. -/
theorem claim10_build_param_mutation_witness :
    (CollectionResponseBuilder.Build "b" 9
        [( "offset", [ "2" ]), ( "limit", [ "5" ]), ( "q", [ "x" ])] ([] : List Nat)).2 =
      Values.del (Values.del [( "offset", [ "2" ]), ( "limit", [ "5" ]), ( "q", [ "x" ])]
        "offset") "limit" ∧
    List.find? (fun q => q.1 == "q")
      (CollectionResponseBuilder.Build "b" 9
        [( "offset", [ "2" ]), ( "limit", [ "5" ]), ( "q", [ "x" ])] ([] : List Nat)).2 =
      List.find? (fun q => q.1 == "q")
        [( "offset", [ "2" ]), ( "limit", [ "5" ]), ( "q", [ "x" ])] :=
  ⟨((claim10_build_param_mutation "b" 9
      [( "offset", [ "2" ]), ( "limit", [ "5" ]), ( "q", [ "x" ])] ([] : List Nat)).1
      (Pagination.mk 2 5) (by rfl)).1,
    ((claim10_build_param_mutation "b" 9
      [( "offset", [ "2" ]), ( "limit", [ "5" ]), ( "q", [ "x" ])] ([] : List Nat)).1
      (Pagination.mk 2 5) (by rfl)).2.2.2 "q" (by decide) (by decide)⟩
